import Mathlib

/-!
Verification of the numba scalar-dispatch module
(`pytensor/link/numba/dispatch/scalar.py`) and the `XlogY0` scalar operator
(`theano/tensor/xlogx.py`).

The Python code is shallowly embedded: the kernel-source synthesizer is
modelled as a function from an operator and a node to either a lowering
error or a synthesized kernel, where the synthesized source text is kept
as a small abstract syntax tree (`WrapperSrc`).  Collaborators that live
outside the two source files (the unique-name generator, the cython
bridge, `create_numba_signature`) are modelled from the specification, as
marked in their doc comments.  The closed-form numeric kernels
(`clip`, `logp1mexp`, Add/Mul folding, `XlogY0.st_impl`) are embedded
directly, real-valued ones over `ℝ`.
-/

namespace PyTensorNumba

/-- A dtype is identified by its name (e.g. `"float64"`), mirroring
`np.dtype(...)` values which the Python code only threads around. -/
abbrev DType := String

/-- A graph variable: carries the natural name used by the unique-name
generator and the declared scalar dtype (`input.type.dtype`). -/
structure GraphVar where
  name : String
  dtype : DType
deriving DecidableEq

/-- An `Apply` node: an operator application with ordered input and output
variables (`node.inputs`, `node.outputs`). -/
structure Apply where
  inputs : List GraphVar
  outputs : List GraphVar
deriving DecidableEq

/-- The part of a `ScalarOp` the synthesizer reads: the optional
`nfunc_spec` descriptor.  `none` models an operator without the
`nfunc_spec` attribute; `some path` models `op.nfunc_spec[0]`. -/
structure ScalarOpT where
  nfunc_spec : Option String
deriving DecidableEq

/-- Modelled from the spec: the result of `wrap_cython_function` from
`pytensor.link.numba.dispatch.cython_support` (not under `src/`): a
resolved native entry point exposing its display name, whether an extra
trailing dispatch-control argument is required
(`has_pyx_skip_dispatch`), the per-argument working precisions
(`numpy_arg_dtypes()`), and the output working precision
(`numpy_output_dtype()`). -/
structure CythonWrapper where
  name : String
  has_pyx_skip_dispatch : Bool
  arg_dtypes : List DType
  out_dtype : DType
deriving DecidableEq

/-- The concrete implementation the synthesized wrapper calls through. -/
inductive Impl where
  /-- `getattr(np, scalar_func_name)`: a numpy function that numba can
  compile directly. -/
  | numpyFunc (name : String)
  /-- a foreign entry point obtained from the cython bridge. -/
  | cythonFunc (w : CythonWrapper)
  /-- the kernel returned by `generate_fallback_impl`. -/
  | fallbackImpl
deriving DecidableEq

/-- One argument of the synthesized call: either a parameter forwarded
verbatim, or `direct_cast(param, dtypeVar)`. -/
inductive CallArg where
  | plain (name : String)
  | cast (name : String) (dtypeVar : String)
deriving DecidableEq

/-- The single call to `scalar_func_numba` in the synthesized body:
its argument list, and the optional trailing dispatch-control literal
(`np.intc(1)` is modelled as `some 1`). -/
structure FfiCall where
  args : List CallArg
  dispatchArg : Option Nat
deriving DecidableEq

/-- The `return` expression of the synthesized wrapper: either the raw
call, or the call wrapped in one `direct_cast(..., outVar)`. -/
inductive RetBody where
  /-- `return scalar_func_numba(...)` -/
  | callOnly (c : FfiCall)
  /-- `return direct_cast(scalar_func_numba(...), outVar)` -/
  | castCall (c : FfiCall) (outVar : String)
deriving DecidableEq

/-- The synthesized wrapper source (`scalar_op_src`) as an AST:
`def fnName(params): return <body>`. -/
structure WrapperSrc where
  fnName : String
  params : List String
  body : RetBody
deriving DecidableEq

/-- Modelled from the spec: `create_numba_signature(node, force_scalar=True)`
(from `pytensor.link.numba.dispatch.basic`, not under `src/`) derives the
call signature strictly from the node's declared input/output dtypes. -/
structure NumbaSignature where
  inTypes : List DType
  outTypes : List DType
  forceScalar : Bool
deriving DecidableEq

/-- The result of lowering one `ScalarOp` node. -/
inductive Kernel where
  /-- the object returned directly by `generate_fallback_impl` when the
  operator carries no `nfunc_spec` (line 42): no wrapper and no explicit
  `numba_njit` flags are attached by this function. -/
  | fallbackDirect
  /-- `numba_basic.numba_njit(signature, fastmath=..., cache=...)` applied
  to the compiled wrapper: the wrapper source, the implementation bound to
  `scalar_func_numba`, the dtype constants bound into the global
  environment, the signature, and the two flags. -/
  | njitWrapper (src : WrapperSrc) (impl : Impl) (dtypeEnv : List (String × DType))
      (signature : NumbaSignature) (fastmath : Bool) (cache : Bool)
deriving DecidableEq

/-- A Python exception aborting the lowering of one node. -/
inductive LowerError where
  /-- `getattr(np, name)` with no default on a missing attribute. -/
  | attributeError (missing : String)
  /-- `raise ValueError(msg)`. -/
  | valueError (msg : String)
deriving DecidableEq

/-- The collaborators the synthesizer consults, passed explicitly:
membership of the general numeric (numpy) namespace, the cython-bridge
resolution (keyed by function name, output dtype and input dtypes, `none`
when the routine is unavailable), and `config.numba__fastmath`. -/
structure LowerEnv where
  numpyHas : String → Bool
  resolveCython : String → DType → List DType → Option CythonWrapper
  fastmath : Bool

/-- Splitting a character list at every dot, the semantics of Python's
`"...".split(".")` (and of `String.splitOn "."`), written structurally so
concrete instances evaluate inside the kernel. -/
def split_dots : List Char → List (List Char)
  | [] => [[]]
  | c :: cs =>
    match split_dots cs with
    | [] => []
    | w :: ws => if c = '.' then [] :: w :: ws else (c :: w) :: ws

/-- `scalar_func_path.split(".")` (line 47). -/
def split_on_dot (s : String) : List String :=
  (split_dots s.data).map (fun l => String.mk l)

/-- `scalar_func_path.startswith("scipy.special")` (line 66). -/
def str_starts_with (s pre : String) : Bool :=
  pre.data.isPrefixOf s.data

/-- Modelled from the spec: `get_name_for_object` (from
`pytensor.link.utils`, not under `src/`) returns a display name for the
resolved implementation. -/
def get_name_for_object : Impl → String
  | .numpyFunc n => n
  | .cythonFunc w => w.name
  | .fallbackImpl => "impl"

/-- Modelled from the spec: one candidate tried by the unique-name
generator: the natural name itself, then `base ++ sep ++ k` for an
increasing integer suffix `k`. -/
def name_candidate (base sep : String) (k : Nat) : String :=
  if k = 0 then base else base ++ sep ++ Nat.repr k

/-- Modelled from the spec: search for the first candidate not yet used.
The fuel bounds the search; `used.length + 1` candidates always suffice. -/
def first_fresh_from (used : List String) (base sep : String) : Nat → Nat → String
  | 0, k => name_candidate base sep k
  | fuel + 1, k =>
    let c := name_candidate base sep k
    if c ∈ used then first_fresh_from used base sep fuel (k + 1) else c

/-- Modelled from the spec: mint one fresh symbol from a natural name,
appending the separator and an increasing integer suffix on collision. -/
def first_fresh (used : List String) (base sep : String) : String :=
  first_fresh_from used base sep (used.length + 1) 0

/-- Modelled from the spec: `unique_name_generator(reserved, suffix_sep)`
applied with `force_unique=True` to each candidate in turn: every call
mints a name avoiding the reserved names and all previously minted ones. -/
def assign_unique_names (sep : String) : List String → List String → List String
  | _, [] => []
  | used, b :: bs =>
    let n := first_fresh used b sep
    n :: assign_unique_names sep (n :: used) bs

/-- Modelled from the spec: `create_numba_signature` records the declared
dtypes and the scalar-shape request. -/
def create_numba_signature (inputs outputs : List GraphVar) (force_scalar : Bool) :
    NumbaSignature :=
  { inTypes := inputs.map (fun v => v.dtype)
  , outTypes := outputs.map (fun v => v.dtype)
  , forceScalar := force_scalar }

/-- The minimal wrapper source (lines 91-107): one uniquely named
parameter per input, all forwarded verbatim, plus the trailing
`np.intc(1)` when the dispatch flag is set. -/
def plain_wrapper_src (scalar_op_fn_name : String) (inputs : List GraphVar)
    (has_pyx_skip_dispatch : Bool) : WrapperSrc :=
  let input_names := assign_unique_names "_" [scalar_op_fn_name, "scalar_func_numba"]
      (inputs.map (fun v => v.name))
  { fnName := scalar_op_fn_name
  , params := input_names
  , body := RetBody.callOnly
      { args := input_names.map CallArg.plain
      , dispatchArg := if has_pyx_skip_dispatch then some 1 else none } }

/-- The dtype-constant names `inp_tmp_dtype_{i}` keyed in position order
(lines 112-115). -/
def input_tmp_dtype_names (input_inner_dtypes : List DType) : List (String × DType) :=
  input_inner_dtypes.enum.map (fun p => ("inp_tmp_dtype_" ++ Nat.repr p.1, p.2))

/-- The precision-converting wrapper source (lines 109-141): every
parameter is cast to its positional `inp_tmp_dtype_i` constant, the call
result is cast to `output_dtype`. -/
def cast_wrapper_src (scalar_op_fn_name : String) (inputs : List GraphVar)
    (input_inner_dtypes : List DType) (has_pyx_skip_dispatch : Bool) : WrapperSrc :=
  let tmp_names := input_tmp_dtype_names input_inner_dtypes
  -- reserved pool: [fn_name, "scalar_func_numba"] + list(global_env.keys())
  let input_names := assign_unique_names "_"
      ([scalar_op_fn_name, "scalar_func_numba", "scalar_func_numba", "direct_cast",
        "output_dtype"] ++ tmp_names.map (fun p => p.1))
      (inputs.map (fun v => v.name))
  { fnName := scalar_op_fn_name
  , params := input_names
  , body := RetBody.castCall
      { args := (List.zip input_names (tmp_names.map (fun p => p.1))).map
          (fun p => CallArg.cast p.1 p.2)
      , dispatchArg := if has_pyx_skip_dispatch then some 1 else none }
      "output_dtype" }

/-- Lines 84-154 of `scalar.py`: build the wrapper source for the resolved
implementation and hand it to `numba_njit(signature, fastmath=..., cache=False)`.
`inner = none` models `input_inner_dtypes is None and output_inner_dtype is None`
(the minimal-wrapper branch, lines 91-107); `inner = some (ins, out)` models
the precision-converting branch (lines 109-141), whose dtype constants
are bound into the synthesis environment (`global_env`, lines 110-116). -/
def synth_wrapper (env : LowerEnv) (node : Apply) (scalar_func_numba : Impl)
    (has_pyx_skip_dispatch : Bool) (inner : Option (List DType × DType)) : Kernel :=
  let scalar_op_fn_name := get_name_for_object scalar_func_numba
  let signature := create_numba_signature node.inputs node.outputs true
  match inner with
  | none =>
    Kernel.njitWrapper
      (plain_wrapper_src scalar_op_fn_name node.inputs has_pyx_skip_dispatch)
      scalar_func_numba [] signature env.fastmath false
  | some (input_inner_dtypes, output_inner_dtype) =>
    Kernel.njitWrapper
      (cast_wrapper_src scalar_op_fn_name node.inputs input_inner_dtypes
        has_pyx_skip_dispatch)
      scalar_func_numba
      (("output_dtype", output_inner_dtype) :: input_tmp_dtype_names input_inner_dtypes)
      signature env.fastmath false

/-- `numba_funcify_ScalarOp` (lines 36-154): resolve the `nfunc_spec`
descriptor (bare name via numpy, `scipy.special.*` via the cython bridge,
otherwise fall back), reject multi-output nodes, then synthesize. -/
def numba_funcify_ScalarOp (env : LowerEnv) (op : ScalarOpT) (node : Apply) :
    Except LowerError Kernel :=
  match op.nfunc_spec with
  | none => Except.ok Kernel.fallbackDirect
  | some scalar_func_path =>
    let parts := split_on_dot scalar_func_path
    let scalar_func_name := parts.getLastD ""
    let module_path := parts.dropLast
    -- line 50: `getattr(np, scalar_func_name)` raises AttributeError when
    -- numpy lacks the name
    if module_path.isEmpty && !env.numpyHas scalar_func_name then
      Except.error (LowerError.attributeError scalar_func_name)
    else
      let scalar_func_numba0 : Option Impl :=
        if module_path.isEmpty then some (Impl.numpyFunc scalar_func_name) else none
      let input_dtypes := node.inputs.map (fun v => v.dtype)
      let output_dtypes := node.outputs.map (fun v => v.dtype)
      -- lines 55-56
      if output_dtypes.length != 1 then
        Except.error (LowerError.valueError
          "ScalarOps with more than one output are not supported")
      else
        let output_dtype := output_dtypes.headD ""
        -- lines 66-79
        if str_starts_with scalar_func_path "scipy.special" then
          match env.resolveCython scalar_func_name output_dtype input_dtypes with
          | some w =>
            Except.ok (synth_wrapper env node (Impl.cythonFunc w)
              w.has_pyx_skip_dispatch (some (w.arg_dtypes, w.out_dtype)))
          | none =>
            -- lines 81-82: still unresolved, wrap the fallback implementation
            Except.ok (synth_wrapper env node
              (scalar_func_numba0.getD Impl.fallbackImpl) false none)
        else
          Except.ok (synth_wrapper env node
            (scalar_func_numba0.getD Impl.fallbackImpl) false none)

/-- The inner graph owned by a `Composite` operator (`op.fgraph`): only its
declared inputs and outputs matter to the lowerer. -/
structure FunctionGraph where
  inputs : List GraphVar
  outputs : List GraphVar
deriving DecidableEq

/-- The part of a `Composite` operator the lowerer reads. -/
structure CompositeOp where
  fgraph : FunctionGraph

/-- `kwargs.pop("storage_map", None)`: remove the key from the keyword
context (a Python dict has at most one entry per key). -/
def pop_key {α : Type} (k : String) (kwargs : List (String × α)) : List (String × α) :=
  kwargs.filter (fun p => p.1 != k)

/-- The result of `numba_funcify_Composite`: the recursively lowered inner
kernel, eagerly specialized (`numba_njit(signature, fastmath=...)`)
against the signature derived from the Composite's own graph. -/
structure CompositeKernel (β : Type) where
  signature : NumbaSignature
  fastmath : Bool
  inner : β
deriving DecidableEq

/-- `numba_funcify_Composite` (lines 248-257): derive the scalar signature
from `op.fgraph`, strip `storage_map` from the keyword context, and make
one recursive call `numba_funcify(op.fgraph, squeeze_output=True, **kwargs)`.
The recursive entry point is an external collaborator, passed in as
`numba_funcify_fgraph`; its `Bool` argument is `squeeze_output`. -/
def numba_funcify_Composite {α β : Type}
    (numba_funcify_fgraph : FunctionGraph → Bool → List (String × α) → β)
    (fastmath : Bool) (op : CompositeOp) (node : Apply)
    (kwargs : List (String × α)) : CompositeKernel β :=
  let signature := create_numba_signature op.fgraph.inputs op.fgraph.outputs true
  let kwargs := pop_key "storage_map" kwargs
  { signature := signature
  , fastmath := fastmath
  , inner := numba_funcify_fgraph op.fgraph true kwargs }

/-- A value handed to a fast-path kernel: numba passes either a bare
scalar or a 0-d boxed value; `to_scalar` coerces both to the scalar. -/
inductive NumbaValue (α : Type) where
  | scalar (x : α)
  | boxed (x : α)
deriving DecidableEq

/-- Modelled from the spec: `numba_basic.to_scalar` coerces an operand to
its common scalar representation. -/
def to_scalar {α : Type} : NumbaValue α → α
  | .scalar x => x
  | .boxed x => x

/-- `clip` (lines 229-240): coerce all three operands with `to_scalar`,
then clamp. -/
def clip {α : Type} [LinearOrder α] (x mn mx : NumbaValue α) : α :=
  let xs := to_scalar x
  let min_scalar := to_scalar mn
  let max_scalar := to_scalar mx
  if xs < min_scalar then min_scalar
  else if xs > max_scalar then max_scalar
  else xs

/-- `binary_to_nary_func` (lines 170-183) joins the parameter names with
the binary operator: `x0 <op> x1 <op> ... <op> xn`.  Python parses this
chain left-associatively, which is exactly a left fold; this definition is
the semantics of the generated body on one-or-more inputs `x :: xs`. -/
def binary_to_nary_sem {α : Type} (f : α → α → α) : α → List α → α
  | x, [] => x
  | x, y :: ys => binary_to_nary_sem f (f x y) ys

/-- The kernel generated by `numba_funcify_Add` (lines 186-193): fold the
inputs with `+`. -/
def add_kernel {α : Type} [Add α] (x : α) (xs : List α) : α :=
  binary_to_nary_sem (fun a b => a + b) x xs

/-- The kernel generated by `numba_funcify_Mul` (lines 196-203): fold the
inputs with `*`. -/
def mul_kernel {α : Type} [Mul α] (x : α) (xs : List α) : α :=
  binary_to_nary_sem (fun a b => a * b) x xs

/-- `np.log1p(y) = log(1 + y)` over the reals. -/
noncomputable def np_log1p (y : ℝ) : ℝ := Real.log (1 + y)

/-- `np.expm1(y) = exp(y) - 1` over the reals. -/
noncomputable def np_expm1 (y : ℝ) : ℝ := Real.exp y - 1

/-- `logp1mexp` (lines 302-307): the numerically stable `log(1 - exp(x))`
with the branch split at `log(0.5)`. -/
noncomputable def logp1mexp (x : ℝ) : ℝ :=
  if x < Real.log 0.5 then np_log1p (-Real.exp x) else Real.log (-np_expm1 x)

deriving instance DecidableEq for Except

/-- A concrete collaborator environment for witnesses: numpy exposes
`add`, the cython bridge resolves `erf` (a routine
`scipy.special.cython_special` does export) at double precision with a
dispatch flag, and `config.numba__fastmath` is on. -/
def sample_env : LowerEnv :=
  { numpyHas := fun n => n == "add"
  , resolveCython := fun n _ _ =>
      if n = "erf" then
        some { name := "erf", has_pyx_skip_dispatch := true
             , arg_dtypes := ["float64"], out_dtype := "float64" }
      else none
  , fastmath := true }

/-- The bridge handle `sample_env` returns for `erf`. -/
def sample_w : CythonWrapper :=
  { name := "erf", has_pyx_skip_dispatch := true
  , arg_dtypes := ["float64"], out_dtype := "float64" }

/-- A single-input, single-output float64 node. -/
def sample_node : Apply :=
  { inputs := [{ name := "x", dtype := "float64" }]
  , outputs := [{ name := "o", dtype := "float64" }] }

/-- A single-input node with two outputs. -/
def sample_node2 : Apply :=
  { inputs := [{ name := "x", dtype := "float64" }]
  , outputs := [{ name := "o1", dtype := "float64" }
               , { name := "o2", dtype := "float64" }] }

/-- The kernel the synthesizer produces for `scipy.special.erf` on
`sample_node` under `sample_env`. -/
def sample_cast_kernel : Kernel :=
  Kernel.njitWrapper
    { fnName := "erf", params := ["x"]
    , body := RetBody.castCall
        { args := [CallArg.cast "x" "inp_tmp_dtype_0"], dispatchArg := some 1 }
        "output_dtype" }
    (Impl.cythonFunc sample_w)
    [("output_dtype", "float64"), ("inp_tmp_dtype_0", "float64")]
    { inTypes := ["float64"], outTypes := ["float64"], forceScalar := true }
    true false

/-- The one `scalar_func_numba(...)` call contained in the wrapper body. -/
def RetBody.call : RetBody → FfiCall
  | .callOnly c => c
  | .castCall c _ => c

/-- The parameter a call argument forwards (stripping a `direct_cast`). -/
def CallArg.base : CallArg → String
  | .plain n => n
  | .cast n _ => n

/-- Whether the resolved implementation requires the trailing
dispatch-control argument: only a cython entry point can
(`has_pyx_skip_dispatch`, line 75); it stays `False` otherwise (line 64). -/
def Impl.needs_dispatch : Impl → Bool
  | .cythonFunc w => w.has_pyx_skip_dispatch
  | .numpyFunc _ => false
  | .fallbackImpl => false

/-- Whether lowering of the node produced a kernel (no exception). -/
def produces_kernel : Except LowerError Kernel → Bool
  | .ok _ => true
  | .error _ => false

/-- The implementation a synthesized wrapper kernel calls through. -/
def lowered_impl : Except LowerError Kernel → Option Impl
  | .ok (.njitWrapper _ impl _ _ _ _) => some impl
  | _ => none

end PyTensorNumba

namespace XlogY0

/-- `XlogY0.st_impl` (`theano/tensor/xlogx.py`, lines 48-52): guard on
`x == 0.0` (the real number zero) before touching `np.log(y)`. -/
noncomputable def st_impl (x y : ℝ) : ℝ :=
  if x = 0 then 0 else x * Real.log y

end XlogY0

namespace PyTensorNumba

/-! ### Helper lemmas -/

theorem assign_unique_names_length (sep : String) (used bs : List String) :
    (assign_unique_names sep used bs).length = bs.length := by
  induction bs generalizing used with
  | nil => rfl
  | cons b bs ih => simp [assign_unique_names, ih]

theorem map_base_cast_zip (ns keys : List String) (h : ns.length ≤ keys.length) :
    ((List.zip ns keys).map (fun p => CallArg.cast p.1 p.2)).map CallArg.base = ns := by
  rw [List.map_map]
  exact List.map_fst_zip ns keys h

/-- Both branches of the synthesizer produce an `njit` kernel around the
given implementation, with the node's scalar signature, the configured
fastmath flag, `cache = False`, the dispatch literal exactly when the
flag is set, one parameter per node input, and (given per-argument
working precisions of matching arity) call arguments forwarding the
parameters positionally. -/
theorem synth_wrapper_parts (env : LowerEnv) (node : Apply) (impl : Impl)
    (hp : Bool) (inner : Option (List DType × DType)) :
    ∃ src dtypeEnv,
      synth_wrapper env node impl hp inner =
        Kernel.njitWrapper src impl dtypeEnv
          (create_numba_signature node.inputs node.outputs true) env.fastmath false
      ∧ (RetBody.call src.body).dispatchArg = (if hp then some 1 else none)
      ∧ src.params.length = node.inputs.length
      ∧ ((∀ ds odt, inner = some (ds, odt) → ds.length = node.inputs.length) →
          (RetBody.call src.body).args.map CallArg.base = src.params) := by
  cases inner with
  | none =>
    refine ⟨_, _, rfl, rfl, ?_, ?_⟩
    · simp [plain_wrapper_src, assign_unique_names_length]
    · intro _
      simp only [plain_wrapper_src, RetBody.call, List.map_map]
      exact List.map_id _
  | some p =>
    obtain ⟨ds, odt⟩ := p
    refine ⟨_, _, rfl, rfl, ?_, ?_⟩
    · simp [cast_wrapper_src, assign_unique_names_length]
    · intro hlen
      have hds := hlen ds odt rfl
      simp only [cast_wrapper_src, RetBody.call]
      refine map_base_cast_zip _ _ ?_
      simp [assign_unique_names_length, input_tmp_dtype_names, hds]

/-- Inverting an `njit` result of the synthesizer. -/
theorem synth_wrapper_inv {env : LowerEnv} {node : Apply} {impl : Impl}
    {hp : Bool} {inner : Option (List DType × DType)} {src2 : WrapperSrc}
    {impl2 : Impl} {denv2 : List (String × DType)} {sig2 : NumbaSignature}
    {fm2 c2 : Bool}
    (h : synth_wrapper env node impl hp inner =
         Kernel.njitWrapper src2 impl2 denv2 sig2 fm2 c2) :
    impl2 = impl ∧ sig2 = create_numba_signature node.inputs node.outputs true
      ∧ fm2 = env.fastmath ∧ c2 = false := by
  obtain ⟨src', denv', hs, -, -, -⟩ := synth_wrapper_parts env node impl hp inner
  rw [hs] at h
  injection h with h1 h2 h3 h4 h5 h6
  exact ⟨h2.symm, h4.symm, h5.symm, h6.symm⟩

theorem ite_numpy_getD_needs (c : Prop) [Decidable c] (n : String) :
    ((if c then some (Impl.numpyFunc n) else none).getD
        Impl.fallbackImpl).needs_dispatch = false := by
  split <;> rfl

/-- Call-shape facts for the minimal-wrapper branch (used when the inner
working precisions are absent; the dispatch flag is then `False`). -/
theorem synth_none_call_props {env : LowerEnv} {node : Apply} (impl0 : Impl)
    (h0 : impl0.needs_dispatch = false)
    {src : WrapperSrc} {impl : Impl} {dtypeEnv : List (String × DType)}
    {sig : NumbaSignature} {fm c : Bool}
    (h : synth_wrapper env node impl0 false none =
         Kernel.njitWrapper src impl dtypeEnv sig fm c) :
    (RetBody.call src.body).args.map CallArg.base = src.params
  ∧ (RetBody.call src.body).dispatchArg =
      (if impl.needs_dispatch then some 1 else none) := by
  obtain ⟨src', denv', hs, hd, hl, hargs⟩ :=
    synth_wrapper_parts env node impl0 false none
  rw [hs] at h
  injection h with e1 e2 e3 e4 e5 e6
  subst e1
  subst e2
  refine ⟨hargs (fun ds odt hi => Option.noConfusion hi), ?_⟩
  rw [h0]
  simpa using hd

/-- Call-shape facts for the precision-converting branch. -/
theorem synth_some_call_props {env : LowerEnv} {node : Apply} (w2 : CythonWrapper)
    {src : WrapperSrc} {impl : Impl} {dtypeEnv : List (String × DType)}
    {sig : NumbaSignature} {fm c : Bool}
    (h : synth_wrapper env node (Impl.cythonFunc w2) w2.has_pyx_skip_dispatch
          (some (w2.arg_dtypes, w2.out_dtype)) =
         Kernel.njitWrapper src impl dtypeEnv sig fm c)
    (hlen : ∀ w3, impl = Impl.cythonFunc w3 →
        w3.arg_dtypes.length = node.inputs.length) :
    (RetBody.call src.body).args.map CallArg.base = src.params
  ∧ (RetBody.call src.body).dispatchArg =
      (if impl.needs_dispatch then some 1 else none) := by
  obtain ⟨src', denv', hs, hd, hl, hargs⟩ :=
    synth_wrapper_parts env node (Impl.cythonFunc w2) w2.has_pyx_skip_dispatch
      (some (w2.arg_dtypes, w2.out_dtype))
  rw [hs] at h
  injection h with e1 e2 e3 e4 e5 e6
  subst e1
  subst e2
  refine ⟨hargs ?_, hd⟩
  intro ds odt hi
  injection hi with hpair
  cases hpair
  exact hlen w2 rfl

theorem binary_to_nary_sem_add {α : Type} [AddMonoid α] (x : α) (xs : List α) :
    binary_to_nary_sem (fun a b => a + b) x xs = x + xs.sum := by
  induction xs generalizing x with
  | nil => simp [binary_to_nary_sem]
  | cons y ys ih => simp [binary_to_nary_sem, ih, add_assoc]

theorem binary_to_nary_sem_mul {α : Type} [Monoid α] (x : α) (xs : List α) :
    binary_to_nary_sem (fun a b => a * b) x xs = x * xs.prod := by
  induction xs generalizing x with
  | nil => simp [binary_to_nary_sem]
  | cons y ys ih => simp [binary_to_nary_sem, ih, mul_assoc]

/-! ### Claim theorems for the synthesizer -/

/-- C1: for a single-output node whose descriptor resolves through the
special-function bridge, the synthesized wrapper casts every input to its
per-position working precision (the `inp_tmp_dtype_i` constant bound to
`w.arg_dtypes[i]` in the synthesis environment) before the single call to
`scalar_func_numba`, and performs exactly one explicit cast of the raw
result to the output working precision (`output_dtype`, bound to
`w.out_dtype`) before returning. -/
theorem scalarop_special_cast_wrapper
    (env : LowerEnv) (op : ScalarOpT) (node : Apply) (path : String)
    (w : CythonWrapper)
    (hspec : op.nfunc_spec = some path)
    (hmp : (split_on_dot path).dropLast ≠ [])
    (hscipy : str_starts_with path "scipy.special" = true)
    (hout1 : node.outputs.length = 1)
    (hres : env.resolveCython ((split_on_dot path).getLastD "")
        ((node.outputs.map (fun v => v.dtype)).headD "")
        (node.inputs.map (fun v => v.dtype)) = some w)
    (hlen : w.arg_dtypes.length = node.inputs.length) :
    ∃ src : WrapperSrc,
      numba_funcify_ScalarOp env op node =
        Except.ok (Kernel.njitWrapper src (Impl.cythonFunc w)
          (("output_dtype", w.out_dtype) ::
            w.arg_dtypes.enum.map (fun p => ("inp_tmp_dtype_" ++ Nat.repr p.1, p.2)))
          (create_numba_signature node.inputs node.outputs true) env.fastmath false)
      ∧ src.params.length = node.inputs.length
      ∧ (RetBody.call src.body).args.length = node.inputs.length
      ∧ src.body = RetBody.castCall
          { args := (List.zip src.params
              (w.arg_dtypes.enum.map (fun p => "inp_tmp_dtype_" ++ Nat.repr p.1))).map
              (fun p => CallArg.cast p.1 p.2)
          , dispatchArg := if w.has_pyx_skip_dispatch then some 1 else none }
          "output_dtype" := by
  have hempty : ((split_on_dot path).dropLast).isEmpty = false := by
    cases hl : (split_on_dot path).dropLast with
    | nil => exact absurd hl hmp
    | cons a l => rfl
  have houts : ((node.outputs.map (fun v => v.dtype)).length != 1) = false := by
    simp [List.length_map, hout1]
  have hmain : numba_funcify_ScalarOp env op node =
      Except.ok (synth_wrapper env node (Impl.cythonFunc w) w.has_pyx_skip_dispatch
        (some (w.arg_dtypes, w.out_dtype))) := by
    simp only [numba_funcify_ScalarOp.eq_def, hspec]
    split
    · rename_i hc
      rw [hempty] at hc
      simp at hc
    · split
      · rename_i hc
        rw [houts] at hc
        simp at hc
      · -- the scipy branch is selected by `hscipy`
        rw [hres]
  refine ⟨cast_wrapper_src (get_name_for_object (Impl.cythonFunc w)) node.inputs
      w.arg_dtypes w.has_pyx_skip_dispatch, ?_, ?_, ?_, ?_⟩
  · rw [hmain]
    rfl
  · simp [cast_wrapper_src, assign_unique_names_length]
  · simp [cast_wrapper_src, input_tmp_dtype_names, RetBody.call,
      assign_unique_names_length, hlen]
  · simp [cast_wrapper_src, input_tmp_dtype_names, List.map_map, Function.comp_def]

/-- Witness for C1: the bridge-resolved `scipy.special.erf` node from the
sample environment produces exactly the cast wrapper kernel. -/
theorem scalarop_special_cast_wrapper_witness :
    numba_funcify_ScalarOp sample_env { nfunc_spec := some "scipy.special.erf" }
      sample_node = Except.ok sample_cast_kernel
    ∧ sample_env.resolveCython "erf" "float64" ["float64"] = some sample_w := by
  obtain ⟨_, _, _, _, _⟩ :=
    scalarop_special_cast_wrapper sample_env { nfunc_spec := some "scipy.special.erf" }
      sample_node "scipy.special.erf" sample_w rfl (by decide) (by decide) (by decide)
      (by decide) (by decide)
  exact ⟨by decide, by decide⟩

/-- C2: a multi-output node whose operator carries a descriptor (one that,
when bare, names an existing function of the general numeric namespace)
aborts lowering with the descriptive `ValueError` — for every possible
behaviour of the cython bridge, i.e. before any synthesis work occurs. -/
theorem scalarop_multi_output_config_error
    (env : LowerEnv) (op : ScalarOpT) (node : Apply) (path : String)
    (hspec : op.nfunc_spec = some path)
    (hvalid : (split_on_dot path).dropLast = [] →
        env.numpyHas ((split_on_dot path).getLastD "") = true)
    (hmulti : 1 < node.outputs.length) :
    numba_funcify_ScalarOp env op node =
      Except.error (LowerError.valueError
        "ScalarOps with more than one output are not supported") := by
  have hcond : ((split_on_dot path).dropLast.isEmpty &&
      !env.numpyHas ((split_on_dot path).getLastD "")) = false := by
    cases hl : (split_on_dot path).dropLast with
    | nil => rw [hvalid hl]; rfl
    | cons a l => rfl
  have houts : ((node.outputs.map (fun v => v.dtype)).length != 1) = true := by
    simp only [List.length_map, bne_iff_ne, ne_eq]
    omega
  simp only [numba_funcify_ScalarOp.eq_def, hspec]
  split
  · rename_i hc
    rw [hcond] at hc
    simp at hc
  · -- the multi-output branch is selected by `houts`
    rfl

/-- Witness for C2: the two-output node with the numpy descriptor `add`
aborts with the multi-output `ValueError`. -/
theorem scalarop_multi_output_config_error_witness :
    numba_funcify_ScalarOp sample_env { nfunc_spec := some "add" } sample_node2 =
      Except.error (LowerError.valueError
        "ScalarOps with more than one output are not supported") :=
  scalarop_multi_output_config_error sample_env { nfunc_spec := some "add" }
    sample_node2 "add" rfl (fun _ => by decide) (by decide)

/-- C3 (amended): a missing descriptor always degrades to the direct
fallback kernel; a single-output node whose namespaced descriptor cannot
be resolved (unrecognized namespace, or special-function routine
unavailable for the dtype combination) silently degrades to a synthesized
wrapper around `generate_fallback_impl` and still produces a kernel. -/
theorem scalarop_unresolved_descriptor_fallback
    (env : LowerEnv) (op : ScalarOpT) (node : Apply) :
    (op.nfunc_spec = none →
        numba_funcify_ScalarOp env op node = Except.ok Kernel.fallbackDirect)
  ∧ (∀ path, op.nfunc_spec = some path →
      (split_on_dot path).dropLast ≠ [] →
      node.outputs.length = 1 →
      (str_starts_with path "scipy.special" = true →
        env.resolveCython ((split_on_dot path).getLastD "")
          ((node.outputs.map (fun v => v.dtype)).headD "")
          (node.inputs.map (fun v => v.dtype)) = none) →
      produces_kernel (numba_funcify_ScalarOp env op node) = true
      ∧ lowered_impl (numba_funcify_ScalarOp env op node) =
          some Impl.fallbackImpl) := by
  constructor
  · intro h0
    simp only [numba_funcify_ScalarOp.eq_def, h0]
  · intro path hspec hmp hout1 hcy
    have hempty : ((split_on_dot path).dropLast).isEmpty = false := by
      cases hl : (split_on_dot path).dropLast with
      | nil => exact absurd hl hmp
      | cons a l => rfl
    have houts : ((node.outputs.map (fun v => v.dtype)).length != 1) = false := by
      simp [List.length_map, hout1]
    have hmain : numba_funcify_ScalarOp env op node =
        Except.ok (synth_wrapper env node Impl.fallbackImpl false none) := by
      simp only [numba_funcify_ScalarOp.eq_def, hspec]
      split
      · rename_i hc
        rw [hempty] at hc
        simp at hc
      · split
        · rename_i hc
          rw [houts] at hc
          simp at hc
        · split
          · rename_i hc
            rw [hcy hc]
            simp [hempty]
          · simp [hempty]
    rw [hmain]
    obtain ⟨src', denv', hs', -, -, -⟩ :=
      synth_wrapper_parts env node Impl.fallbackImpl false none
    rw [hs']
    exact ⟨rfl, rfl⟩

/-- Witness for C3 (amended): the unavailable special-function descriptor
`scipy.special.zzz` still produces a kernel, wrapping the fallback
implementation. -/
theorem scalarop_unresolved_descriptor_fallback_witness :
    produces_kernel (numba_funcify_ScalarOp sample_env
        { nfunc_spec := some "scipy.special.zzz" } sample_node) = true
    ∧ lowered_impl (numba_funcify_ScalarOp sample_env
        { nfunc_spec := some "scipy.special.zzz" } sample_node) =
        some Impl.fallbackImpl :=
  (scalarop_unresolved_descriptor_fallback sample_env
      { nfunc_spec := some "scipy.special.zzz" } sample_node).2
    "scipy.special.zzz" rfl (by decide) (by decide) (fun _ => by decide)

/-- Counterexample for C3 as stated: a bare descriptor that does not
resolve in the general numeric namespace (numpy has no attribute
`this_is_not_numpy`) raises an `AttributeError` instead of degrading to
the fallback — lowering of the node produces no kernel. -/
theorem scalarop_bare_unresolved_raises :
    numba_funcify_ScalarOp sample_env { nfunc_spec := some "this_is_not_numpy" }
      sample_node =
      Except.error (LowerError.attributeError "this_is_not_numpy") := by
  decide

/-- C4: every synthesized wrapper forwards its uniquely generated
parameters positionally to `scalar_func_numba`, and exactly when the
resolved implementation requires the dispatch-control argument, the fixed
standard-selection literal `1` is appended as one extra trailing
argument. -/
theorem scalarop_call_positional
    {env : LowerEnv} {op : ScalarOpT} {node : Apply}
    {src : WrapperSrc} {impl : Impl} {dtypeEnv : List (String × DType)}
    {sig : NumbaSignature} {fm c : Bool}
    (h : numba_funcify_ScalarOp env op node =
         Except.ok (Kernel.njitWrapper src impl dtypeEnv sig fm c))
    (hlen : ∀ w, impl = Impl.cythonFunc w →
        w.arg_dtypes.length = node.inputs.length) :
    (RetBody.call src.body).args.map CallArg.base = src.params
  ∧ (RetBody.call src.body).dispatchArg =
      (if impl.needs_dispatch then some 1 else none) := by
  simp only [numba_funcify_ScalarOp.eq_def] at h
  split at h
  · exact Kernel.noConfusion (Except.ok.inj h)
  · split at h
    · exact Except.noConfusion h
    · split at h
      · exact Except.noConfusion h
      · split at h
        · split at h
          · rename_i w2 heq
            exact synth_some_call_props w2 (Except.ok.inj h) hlen
          · exact synth_none_call_props _ (ite_numpy_getD_needs _ _) (Except.ok.inj h)
        · exact synth_none_call_props _ (ite_numpy_getD_needs _ _) (Except.ok.inj h)

/-- Witness for C4: the sample `erf` kernel forwards its parameter `x`
positionally and, since the routine requires the dispatch flag, appends
the literal `1`. -/
theorem scalarop_call_positional_witness :
    numba_funcify_ScalarOp sample_env { nfunc_spec := some "scipy.special.erf" }
      sample_node = Except.ok sample_cast_kernel
    ∧ [CallArg.cast "x" "inp_tmp_dtype_0"].map CallArg.base = ["x"] := by
  have h : numba_funcify_ScalarOp sample_env
      { nfunc_spec := some "scipy.special.erf" } sample_node =
      Except.ok sample_cast_kernel := by decide
  have h2 := scalarop_call_positional h
    (fun w hw => by injection hw with hw2; cases hw2; decide)
  exact ⟨h, h2.1⟩

/-- C5: every specialized kernel produced by the synthesizer that calls
through a foreign (cython) function pointer carries the explicit
`cache=False` flag (lines 149-154). -/
theorem scalarop_foreign_kernel_not_cached
    {env : LowerEnv} {op : ScalarOpT} {node : Apply}
    {src : WrapperSrc} {w : CythonWrapper} {dtypeEnv : List (String × DType)}
    {sig : NumbaSignature} {fm c : Bool}
    (h : numba_funcify_ScalarOp env op node =
         Except.ok (Kernel.njitWrapper src (Impl.cythonFunc w) dtypeEnv sig fm c)) :
    c = false := by
  simp only [numba_funcify_ScalarOp.eq_def] at h
  split at h
  · exact Kernel.noConfusion (Except.ok.inj h)
  · split at h
    · exact Except.noConfusion h
    · split at h
      · exact Except.noConfusion h
      · split at h
        · split at h
          · exact (synth_wrapper_inv (Except.ok.inj h)).2.2.2
          · exact (synth_wrapper_inv (Except.ok.inj h)).2.2.2
        · exact (synth_wrapper_inv (Except.ok.inj h)).2.2.2

/-- Witness for C5: lowering a single-output node whose descriptor
`scipy.special.erf` resolves through the bridge yields exactly the
synthesized cast wrapper, whose cache flag is `false`. -/
theorem scalarop_foreign_kernel_not_cached_witness :
    numba_funcify_ScalarOp sample_env { nfunc_spec := some "scipy.special.erf" }
      sample_node = Except.ok sample_cast_kernel
    ∧ false = false := by
  have h : numba_funcify_ScalarOp sample_env { nfunc_spec := some "scipy.special.erf" }
      sample_node = Except.ok sample_cast_kernel := by decide
  exact ⟨h, scalarop_foreign_kernel_not_cached h⟩

/-! ### Claim theorems for the fast-path kernels -/

/-- C7: the `Log1mexp` fast-path kernel computes `log1p(-exp(x))` for
every input strictly below `log(0.5)` and `log(-expm1(x))` for every
input at or above `log(0.5)`; in particular, at `x = log(0.5)` the result
equals `log(-expm1(x))`. -/
theorem log1mexp_stable_branches :
    (∀ x : ℝ,
        (x < Real.log 0.5 → logp1mexp x = np_log1p (-Real.exp x))
      ∧ (Real.log 0.5 ≤ x → logp1mexp x = Real.log (-np_expm1 x)))
    ∧ logp1mexp (Real.log 0.5) = Real.log (-np_expm1 (Real.log 0.5)) := by
  constructor
  · intro x
    constructor
    · intro h
      simp only [logp1mexp]
      rw [if_pos h]
    · intro h
      simp only [logp1mexp]
      rw [if_neg (not_lt.mpr h)]
  · simp only [logp1mexp]
    rw [if_neg (lt_irrefl _)]

/-- Witness for C7: at `x = 0` (which is at or above `log(0.5)`) the
kernel takes the `log(-expm1(x))` branch. -/
theorem log1mexp_stable_branches_witness :
    logp1mexp 0 = Real.log (-np_expm1 0) :=
  (log1mexp_stable_branches.1 0).2
    (Real.log_nonpos (by norm_num) (by norm_num))

/-- C8: the Add and Mul fast-path kernels fold their one-or-more inputs
left-to-right with `+` / `*`, returning the n-ary sum / product; on
inputs (2, 3, 4) they return 9 and 24. -/
theorem add_mul_nary_fold :
    (∀ (α : Type) [AddMonoid α] (x : α) (xs : List α),
        add_kernel x xs = (x :: xs).sum)
  ∧ (∀ (α : Type) [Monoid α] (x : α) (xs : List α),
        mul_kernel x xs = (x :: xs).prod)
  ∧ add_kernel (2 : ℤ) [3, 4] = 9
  ∧ mul_kernel (2 : ℤ) [3, 4] = 24 := by
  refine ⟨?_, ?_, by decide, by decide⟩
  · intro α inst x xs
    rw [add_kernel, binary_to_nary_sem_add, List.sum_cons]
  · intro α inst x xs
    rw [mul_kernel, binary_to_nary_sem_mul, List.prod_cons]

/-- C9: the `clip` kernel coerces all three operands to a common scalar
representation before any comparison (its value only depends on the
coerced scalars), and clamps: `m` when `x < m`, `M` when `x > M` (with
well-formed bounds `m ≤ M`), `x` otherwise; concretely
`clip(5,0,3) = 3`, `clip(-1,0,3) = 0`, `clip(2,0,3) = 2`. -/
theorem clip_clamps :
    (∀ (α : Type) [LinearOrder α] (x mn mx : NumbaValue α),
        clip x mn mx =
          clip (NumbaValue.scalar (to_scalar x)) (NumbaValue.scalar (to_scalar mn))
            (NumbaValue.scalar (to_scalar mx))
      ∧ (to_scalar x < to_scalar mn → clip x mn mx = to_scalar mn)
      ∧ (to_scalar mn ≤ to_scalar mx → to_scalar mx < to_scalar x →
          clip x mn mx = to_scalar mx)
      ∧ (¬ to_scalar x < to_scalar mn → ¬ to_scalar mx < to_scalar x →
          clip x mn mx = to_scalar x))
  ∧ clip (NumbaValue.scalar (5 : ℤ)) (NumbaValue.scalar 0) (NumbaValue.scalar 3) = 3
  ∧ clip (NumbaValue.scalar (-1 : ℤ)) (NumbaValue.scalar 0) (NumbaValue.scalar 3) = 0
  ∧ clip (NumbaValue.scalar (2 : ℤ)) (NumbaValue.scalar 0) (NumbaValue.scalar 3) = 2 := by
  refine ⟨?_, by decide, by decide, by decide⟩
  intro α inst x mn mx
  refine ⟨rfl, ?_, ?_, ?_⟩
  · intro h
    simp only [clip]
    rw [if_pos h]
  · intro h1 h2
    simp only [clip]
    rw [if_neg (not_lt.mpr (le_of_lt (lt_of_le_of_lt h1 h2))), if_pos h2]
  · intro h1 h2
    simp only [clip]
    rw [if_neg h1, if_neg h2]

/-- Witness for C9: clipping 5 into the bounds [0, 3] returns the upper
bound 3 through the `x > M` case of the theorem. -/
theorem clip_clamps_witness :
    clip (NumbaValue.scalar (5 : ℤ)) (NumbaValue.scalar 0) (NumbaValue.scalar 3) = 3 :=
  (clip_clamps.1 ℤ (NumbaValue.scalar 5) (NumbaValue.scalar 0)
      (NumbaValue.scalar 3)).2.2.1 (by decide) (by decide)

/-- C6: lowering a `Composite` makes exactly one recursive invocation of
the subgraph-lowering pipeline — the result depends on the collaborator
only through the single call on `op.fgraph` with `squeeze_output = True`
and the `storage_map`-stripped keyword context — and eagerly specializes
against the scalar signature derived from the Composite's own declared
inputs/outputs. -/
theorem composite_lowering_single_recursion {α β : Type}
    (lower1 lower2 : FunctionGraph → Bool → List (String × α) → β)
    (fastmath : Bool) (op : CompositeOp) (node : Apply)
    (kwargs : List (String × α))
    (hagree : lower1 op.fgraph true (pop_key "storage_map" kwargs) =
              lower2 op.fgraph true (pop_key "storage_map" kwargs)) :
    numba_funcify_Composite lower1 fastmath op node kwargs =
      numba_funcify_Composite lower2 fastmath op node kwargs
  ∧ (numba_funcify_Composite lower1 fastmath op node kwargs).inner =
      lower1 op.fgraph true (pop_key "storage_map" kwargs)
  ∧ (numba_funcify_Composite lower1 fastmath op node kwargs).signature =
      create_numba_signature op.fgraph.inputs op.fgraph.outputs true
  ∧ (numba_funcify_Composite lower1 fastmath op node kwargs).fastmath = fastmath
  ∧ ∀ p : String × α,
      p ∈ pop_key "storage_map" kwargs ↔ p ∈ kwargs ∧ p.1 ≠ "storage_map" := by
  refine ⟨?_, rfl, rfl, rfl, ?_⟩
  · simp only [numba_funcify_Composite, hagree]
  · intro p
    simp [pop_key, List.mem_filter, bne_iff_ne]

/-- Witness for C6: with a collaborator that returns the length of the
keyword context it receives, lowering a concrete Composite over the
context `[("storage_map", 5), ("other", 7)]` yields inner value 1 — the
single recursive call saw only the stripped context. -/
theorem composite_lowering_single_recursion_witness :
    (numba_funcify_Composite
        (fun (_ : FunctionGraph) (_ : Bool) (kw : List (String × Nat)) => kw.length)
        true
        { fgraph := { inputs := [{ name := "a", dtype := "float64" }]
                    , outputs := [{ name := "o", dtype := "float64" }] } }
        { inputs := [], outputs := [] }
        [("storage_map", 5), ("other", 7)]).inner = 1 :=
  (composite_lowering_single_recursion _ _ true _ _ _ rfl).2.1.trans rfl

end PyTensorNumba

/-- C10: `XlogY0.st_impl` with first argument 0.0 returns exactly 0.0 for
every second argument, including `y = 0` and `y = -1` where `log(y)`
would be undefined — the guard short-circuits before `log(y)` is used. -/
theorem xlogy0_zero_first_arg :
    (∀ y : ℝ, XlogY0.st_impl 0 y = 0)
  ∧ XlogY0.st_impl 0 0 = 0 ∧ XlogY0.st_impl 0 (-1) = 0 := by
  refine ⟨fun y => ?_, ?_, ?_⟩ <;> simp [XlogY0.st_impl]
